import Mathlib

/-!
Shallow embedding of `newt/cli/build_cmds.go` from mynewt-newtmgr: the
build/test orchestration commands (`buildRunCmd`, `cleanRunCmd`,
`testRunCmd`).  External collaborators (project state, name resolvers,
builder construction, builder actions, the filesystem) are modelled as an
environment of functions; the project-state generation is made explicit as
a natural number that `project.ResetProject` increments (generation 0 is
the one produced by the initial `project.Initialize`).  Each command is a
pure function from the environment and the argument list to an ordered
event trace plus a terminal outcome, mirroring the Go control flow
statement by statement.
-/

namespace BuildCmds

/-- `pkg.LocalPackage`: the fields the commands read (`FullName()`,
`Name()`, `BasePath()`). -/
structure LocalPackage where
  fullName : String
  name : String
  basePath : String
  deriving DecidableEq, Repr

/-- `target.Target`: only its name is observed by this file. -/
structure Target where
  tname : String
  deriving DecidableEq, Repr

/-- `util.NewtError`: the structured error type; only its `Text` field is
read here. -/
structure NewtError where
  text : String
  deriving DecidableEq, Repr

/-- A Go `error` value as seen by `testRunCmd`: either the concrete
structured type `*util.NewtError`, or an error of any other dynamic type
(carrying its `Error()` string).  The dynamic type assertion
`err.(*util.NewtError)` succeeds exactly on the first constructor. -/
inductive GoError where
  | newt : NewtError → GoError
  | other : String → GoError
  deriving DecidableEq, Repr

/-- The verbosity levels of `util.StatusMessage` used in this file. -/
inductive Verbosity where
  | quiet
  | default
  | verbose
  deriving DecidableEq, Repr

/-- Observable actions performed by the commands, in program order.
Resolution events record the project-state generation they ran against. -/
inductive Event where
  | reset : Event
  | resolveTgt : Nat → String → Event
  | mkBuilder : Nat → Target → Event
  | status : Verbosity → String → Event
  | resolvePkg : Nat → String → Event
  | testAction : Nat → Target → LocalPackage → Event
  | removeAll : String → Event
  | cleanAction : Target → Event
  | buildAction : Target → Event
  deriving DecidableEq, Repr

/-- Modelled from the spec: `NewtUsage` (defined elsewhere in the `cli`
package) terminates the process with a non-zero status, printing the given
error when there is one.  `ok` is normal termination; `panicked` is a Go
runtime panic (e.g. a failing dynamic type assertion). -/
inductive Outcome where
  | ok : Outcome
  | usageExit : Option NewtError → Outcome
  | panicked : String → Outcome
  deriving DecidableEq, Repr

/-- `const TARGET_TEST_NAME = "unittest"` (build_cmds.go line 34). -/
def TARGET_TEST_NAME : String := "unittest"

/-- Modelled from the spec: `TARGET_KEYWORD_ALL` (defined in the `target`
package, not in this source file) is the reserved wildcard name `"all"`
recognized by commands that support bulk operation. -/
def TARGET_KEYWORD_ALL : String := "all"

/-- Environment for `testRunCmd`: the external collaborators it calls.
`resolvePackage`, `resolveTarget`, `mkBuilderRes` and `test` take the
project-state generation as first argument; generation 0 is the state
after the initial `project.Initialize`, and the `n`-th
`project.ResetProject` call moves the state to generation `n`. -/
structure TestEnv where
  projInit : Option NewtError
  nodeExist : String → Bool
  packageList : List (List LocalPackage)
  resolvePackage : Nat → String → Except NewtError LocalPackage
  resolveTarget : Nat → String → Option Target
  mkBuilderRes : Nat → Target → Option NewtError
  test : Nat → Target → LocalPackage → Option GoError

/-- `pkgIsTestable` (build_cmds.go lines 36–38):
`util.NodeExist(pack.BasePath() + "/src/test")`. -/
def pkgIsTestable (env : TestEnv) (pack : LocalPackage) : Bool :=
  env.nodeExist (pack.basePath ++ "/src/test")

/-- Result of one per-package test cycle (one iteration of the loop at
build_cmds.go lines 154–190): a fatal `NewtUsage` exit, a runtime panic,
or completion with the re-resolved package recorded as passed/failed. -/
inductive CycleResult where
  | fatal : Option NewtError → CycleResult
  | panicked : String → CycleResult
  | donePass : LocalPackage → CycleResult
  | doneFail : LocalPackage → CycleResult
  deriving DecidableEq, Repr

/-- One iteration of the test loop (build_cmds.go lines 154–190), run at
project-state generation `gen` (the generation created by the
`project.ResetProject()` call that opens the iteration): resolve the fixed
target `TARGET_TEST_NAME`, construct a fresh builder, print the progress
notice, re-resolve the package by its recorded full name, invoke the test
action on the re-resolved package, and classify the outcome (the `else`
branch performs the dynamic type assertion `err.(*util.NewtError)`). -/
def testCycle (env : TestEnv) (gen : Nat) (pack : LocalPackage) :
    List Event × CycleResult :=
  let ev0 := [Event.reset, Event.resolveTgt gen TARGET_TEST_NAME]
  match env.resolveTarget gen TARGET_TEST_NAME with
  | none =>
      (ev0, CycleResult.fatal (some ⟨"Can" ++ String.singleton (Char.ofNat 39) ++
        "t find unit test target: " ++ TARGET_TEST_NAME⟩))
  | some t =>
    let ev1 := ev0 ++ [Event.mkBuilder gen t]
    match env.mkBuilderRes gen t with
    | some e => (ev1, CycleResult.fatal (some e))
    | none =>
      let ev2 := ev1 ++
        [Event.status Verbosity.default
          ("Testing package " ++ pack.fullName ++ "\n"),
         Event.resolvePkg gen pack.fullName]
      match env.resolvePackage gen pack.fullName with
      | Except.error _ =>
          (ev2, CycleResult.fatal (some ⟨"Failed to resolve package: " ++
            pack.name⟩))
      | Except.ok newPack =>
        let ev3 := ev2 ++ [Event.testAction gen t newPack]
        match env.test gen t newPack with
        | none => (ev3, CycleResult.donePass newPack)
        | some (GoError.newt ne) =>
            (ev3 ++ [Event.status Verbosity.quiet ne.text],
             CycleResult.doneFail newPack)
        | some (GoError.other m) => (ev3, CycleResult.panicked m)

/-- How the test batch loop can stop before processing every package:
a `NewtUsage` exit from a fatal step, or a panic from the classification
step. -/
inductive EarlyExit where
  | usage : Option NewtError → EarlyExit
  | panicStop : String → EarlyExit
  deriving DecidableEq, Repr

/-- Output of the test batch loop: the event trace, the accumulated
`passedPkgs` and `failedPkgs` lists (in selection order), and whether the
loop stopped early. -/
structure LoopOut where
  events : List Event
  passed : List LocalPackage
  failed : List LocalPackage
  early : Option EarlyExit
  deriving DecidableEq, Repr

/-- The test batch loop (build_cmds.go lines 152–190): run one cycle per
selected package, strictly sequentially, the cycle for the `i`-th package
running at generation `gen + i`; a fatal step or a panic stops the loop,
a pass/fail classification appends to the respective list and continues. -/
def runCycles (env : TestEnv) (gen : Nat) :
    List LocalPackage → LoopOut
  | [] => ⟨[], [], [], none⟩
  | pack :: rest =>
    match testCycle env gen pack with
    | (ev, CycleResult.fatal e) => ⟨ev, [], [], some (EarlyExit.usage e)⟩
    | (ev, CycleResult.panicked m) => ⟨ev, [], [], some (EarlyExit.panicStop m)⟩
    | (ev, CycleResult.donePass q) =>
        let out := runCycles env (gen + 1) rest
        ⟨ev ++ out.events, q :: out.passed, out.failed, out.early⟩
    | (ev, CycleResult.doneFail q) =>
        let out := runCycles env (gen + 1) rest
        ⟨ev ++ out.events, out.passed, q :: out.failed, out.early⟩

/-- Argument classification of `testRunCmd` (build_cmds.go lines 120–133):
scan the arguments in order, recording whether the literal `"all"` occurs
and resolving every other argument as a package name against generation 0;
the first resolution failure aborts the command (`NewtUsage`). -/
def classifyArgs (env : TestEnv) : List String →
    Except NewtError (Bool × List LocalPackage)
  | [] => Except.ok (false, [])
  | a :: rest =>
    if a = "all" then
      match classifyArgs env rest with
      | Except.error e => Except.error e
      | Except.ok (_, ps) => Except.ok (true, ps)
    else
      match env.resolvePackage 0 a with
      | Except.error e => Except.error e
      | Except.ok p =>
        match classifyArgs env rest with
        | Except.error e => Except.error e
        | Except.ok (tAll, ps) => Except.ok (tAll, p :: ps)

/-- The `testAll` re-selection (build_cmds.go lines 135–146): when `"all"`
was seen, discard the explicitly resolved packages and select every
package of every repository that `pkgIsTestable` accepts. -/
def selectPacks (env : TestEnv) (tAll : Bool)
    (explicit : List LocalPackage) : List LocalPackage :=
  if tAll then (env.packageList.flatten).filter (fun p => pkgIsTestable env p)
  else explicit

/-- Modelled from the spec: `PackageNameList` (defined elsewhere in the
`cli` package) formats a package list for the final report, fully naming
every package in it. -/
def PackageNameList (pkgs : List LocalPackage) : String :=
  String.intercalate ", " (pkgs.map (fun p => p.name))

/-- Full output of `testRunCmd`: event trace, final `passedPkgs` and
`failedPkgs` lists, terminal outcome. -/
structure RunOut where
  events : List Event
  passedPkgs : List LocalPackage
  failedPkgs : List LocalPackage
  result : Outcome
  deriving DecidableEq, Repr

/-- `testRunCmd` (build_cmds.go lines 111–202): initialize the project,
require at least one argument, classify the arguments (resolving explicit
names), apply the `"all"` re-selection, fail with "No testable packages
found" on an empty selection, run the batch loop starting at generation 1,
then aggregate: a non-empty failed list exits via `NewtUsage` with a
report naming both lists, otherwise the passed list and "All tests passed"
are printed. -/
def testRunCmd (env : TestEnv) (args : List String) : RunOut :=
  match env.projInit with
  | some e => ⟨[], [], [], Outcome.usageExit (some e)⟩
  | none =>
    if args.length < 1 then ⟨[], [], [], Outcome.usageExit none⟩
    else
      match classifyArgs env args with
      | Except.error e => ⟨[], [], [], Outcome.usageExit (some e)⟩
      | Except.ok (tAll, explicit) =>
        let packs := selectPacks env tAll explicit
        if packs.length = 0 then
          ⟨[], [], [], Outcome.usageExit (some ⟨"No testable packages found"⟩)⟩
        else
          let out := runCycles env 1 packs
          match out.early with
          | some (EarlyExit.usage e) =>
              ⟨out.events, out.passed, out.failed, Outcome.usageExit e⟩
          | some (EarlyExit.panicStop m) =>
              ⟨out.events, out.passed, out.failed, Outcome.panicked m⟩
          | none =>
            let passStr := "Passed tests: [" ++ PackageNameList out.passed ++ "]"
            let failStr := "Failed tests: [" ++ PackageNameList out.failed ++ "]"
            if out.failed.length > 0 then
              ⟨out.events, out.passed, out.failed,
               Outcome.usageExit (some ⟨"Test failure(s):\n" ++ passStr ++
                 "\n" ++ failStr⟩)⟩
            else
              ⟨out.events ++
                 [Event.status Verbosity.default (passStr ++ "\n"),
                  Event.status Verbosity.default "All tests passed\n"],
               out.passed, out.failed, Outcome.ok⟩

/-- Environment for `cleanRunCmd` and `buildRunCmd`: these commands never
reset the project, so their collaborators are not generation-indexed. -/
structure CmdEnv where
  projInit : Option NewtError
  resolveTarget : String → Option Target
  mkBuilderRes : Target → Option NewtError
  cleanRes : Target → Option NewtError
  buildRes : Target → Option NewtError
  appElfPath : Target → String
  binRoot : String
  removeAllRes : Option NewtError

/-- Argument classification of `cleanRunCmd` (build_cmds.go lines 74–86):
scan the arguments in order, recording whether `TARGET_KEYWORD_ALL`
occurs and resolving every other argument as a target name; an
unresolvable name aborts with "invalid target name". -/
def classifyCleanArgs (env : CmdEnv) : List String →
    Except NewtError (Bool × List Target)
  | [] => Except.ok (false, [])
  | a :: rest =>
    if a = TARGET_KEYWORD_ALL then
      match classifyCleanArgs env rest with
      | Except.error e => Except.error e
      | Except.ok (_, ts) => Except.ok (true, ts)
    else
      match env.resolveTarget a with
      | none => Except.error ⟨"invalid target name: " ++ a⟩
      | some t =>
        match classifyCleanArgs env rest with
        | Except.error e => Except.error e
        | Except.ok (cAll, ts) => Except.ok (cAll, t :: ts)

/-- The per-target branch of `cleanRunCmd` (build_cmds.go lines 97–108):
for each resolved target construct a builder and invoke `Clean`, aborting
on the first error. -/
def cleanTargets (env : CmdEnv) : List Target → List Event × Option NewtError
  | [] => ([], none)
  | t :: ts =>
    match env.mkBuilderRes t with
    | some e => ([Event.mkBuilder 0 t], some e)
    | none =>
      match env.cleanRes t with
      | some e => ([Event.mkBuilder 0 t, Event.cleanAction t], some e)
      | none =>
        let (ev, r) := cleanTargets env ts
        (Event.mkBuilder 0 t :: Event.cleanAction t :: ev, r)

/-- `cleanRunCmd` (build_cmds.go lines 66–109): initialize, require an
argument, classify the arguments; if the wildcard occurred anywhere,
remove the whole `builder.BinRoot()` recursively, otherwise clean each
resolved target in order. -/
def cleanRunCmd (env : CmdEnv) (args : List String) : List Event × Outcome :=
  match env.projInit with
  | some e => ([], Outcome.usageExit (some e))
  | none =>
    if args.length < 1 then
      ([], Outcome.usageExit (some ⟨"Must specify target"⟩))
    else
      match classifyCleanArgs env args with
      | Except.error e => ([], Outcome.usageExit (some e))
      | Except.ok (cleanAll, targets) =>
        if cleanAll then
          let ev := [Event.status Verbosity.verbose
                       ("Cleaning directory " ++ env.binRoot ++ "\n"),
                     Event.removeAll env.binRoot]
          match env.removeAllRes with
          | some e => (ev, Outcome.usageExit (some e))
          | none => (ev, Outcome.ok)
        else
          match cleanTargets env targets with
          | (ev, some e) => (ev, Outcome.usageExit (some e))
          | (ev, none) => (ev, Outcome.ok)

/-- `buildRunCmd` (build_cmds.go lines 40–64): initialize, require an
argument, resolve the first argument as a target, construct a builder,
invoke `Build`, and on success print the confirmation naming
`b.AppElfPath()`. -/
def buildRunCmd (env : CmdEnv) (args : List String) : List Event × Outcome :=
  match env.projInit with
  | some e => ([], Outcome.usageExit (some e))
  | none =>
    match args with
    | [] => ([], Outcome.usageExit none)
    | a :: _ =>
      match env.resolveTarget a with
      | none => ([], Outcome.usageExit (some ⟨"invalid target name: " ++ a⟩))
      | some t =>
        match env.mkBuilderRes t with
        | some e => ([Event.mkBuilder 0 t], Outcome.usageExit (some e))
        | none =>
          match env.buildRes t with
          | some e => ([Event.mkBuilder 0 t, Event.buildAction t],
                       Outcome.usageExit (some e))
          | none => ([Event.mkBuilder 0 t, Event.buildAction t,
                      Event.status Verbosity.default
                        ("App successfully built: " ++ env.appElfPath t ++ "\n")],
                     Outcome.ok)

/-- Placeholder package used only as the default of `List.getD`. -/
def dfltPack : LocalPackage := ⟨"", "", ""⟩

/-- A cycle "completes" when it records a pass/fail outcome, i.e. none of
its fatal steps fired and the classification did not panic. -/
def cycleCompletesB (env : TestEnv) (gen : Nat) (pack : LocalPackage) : Bool :=
  match (testCycle env gen pack).2 with
  | CycleResult.donePass _ => true
  | CycleResult.doneFail _ => true
  | _ => false

/-- Every cycle of the batch completes, the `i`-th one at generation
`gen + i`. -/
def allComplete (env : TestEnv) : Nat → List LocalPackage → Bool
  | _, [] => true
  | gen, p :: ps => cycleCompletesB env gen p && allComplete env (gen + 1) ps

/-- Following the spec (Step 2g): the re-resolved packages whose cycle
classified as passing, in selection order. -/
def specPassed (env : TestEnv) : Nat → List LocalPackage → List LocalPackage
  | _, [] => []
  | gen, p :: ps =>
    match (testCycle env gen p).2 with
    | CycleResult.donePass q => q :: specPassed env (gen + 1) ps
    | _ => specPassed env (gen + 1) ps

/-- Following the spec (Step 2g): the re-resolved packages whose cycle
classified as failing, in selection order. -/
def specFailed (env : TestEnv) : Nat → List LocalPackage → List LocalPackage
  | _, [] => []
  | gen, p :: ps =>
    match (testCycle env gen p).2 with
    | CycleResult.doneFail q => q :: specFailed env (gen + 1) ps
    | _ => specFailed env (gen + 1) ps

/-- `K`: how many of the selected packages have a failing test action in
their cycle. -/
def failCount (env : TestEnv) : Nat → List LocalPackage → Nat
  | _, [] => 0
  | gen, p :: ps =>
    (match (testCycle env gen p).2 with
     | CycleResult.doneFail _ => 1
     | _ => 0) + failCount env (gen + 1) ps

/-- Concatenation of the per-cycle event traces, the `i`-th cycle at
generation `gen + i`. -/
def batchEvents (env : TestEnv) : Nat → List LocalPackage → List Event
  | _, [] => []
  | gen, p :: ps => (testCycle env gen p).1 ++ batchEvents env (gen + 1) ps

/-- The events the classification step emits after the test action: the
diagnostic text at quiet verbosity when the error is a structured
`NewtError`, nothing otherwise. -/
def cycleTail (env : TestEnv) (gen : Nat) (t : Target) (q : LocalPackage) :
    List Event :=
  match env.test gen t q with
  | some (GoError.newt ne) => [Event.status Verbosity.quiet ne.text]
  | _ => []

theorem runCycles_eq_of_allComplete (env : TestEnv) (packs : List LocalPackage)
    (gen : Nat) (h : allComplete env gen packs = true) :
    runCycles env gen packs =
      ⟨batchEvents env gen packs, specPassed env gen packs,
       specFailed env gen packs, none⟩ := by
  induction packs generalizing gen with
  | nil => rfl
  | cons p ps ih =>
    rw [allComplete, Bool.and_eq_true] at h
    obtain ⟨h1, h2⟩ := h
    rcases he : testCycle env gen p with ⟨ev, r⟩
    cases r with
    | fatal e => simp [cycleCompletesB, he] at h1
    | panicked m => simp [cycleCompletesB, he] at h1
    | donePass q =>
        simp [runCycles, he, batchEvents, specPassed, specFailed, ih (gen + 1) h2]
    | doneFail q =>
        simp [runCycles, he, batchEvents, specPassed, specFailed, ih (gen + 1) h2]

theorem specPassed_length_add (env : TestEnv) (packs : List LocalPackage)
    (gen : Nat) (h : allComplete env gen packs = true) :
    (specPassed env gen packs).length + (specFailed env gen packs).length =
      packs.length := by
  induction packs generalizing gen with
  | nil => rfl
  | cons p ps ih =>
    rw [allComplete, Bool.and_eq_true] at h
    obtain ⟨h1, h2⟩ := h
    rcases he : testCycle env gen p with ⟨ev, r⟩
    cases r with
    | fatal e => simp [cycleCompletesB, he] at h1
    | panicked m => simp [cycleCompletesB, he] at h1
    | donePass q =>
        have hih := ih (gen + 1) h2
        simp only [specPassed, specFailed, he, List.length_cons]
        omega
    | doneFail q =>
        have hih := ih (gen + 1) h2
        simp only [specPassed, specFailed, he, List.length_cons]
        omega

theorem specFailed_length_eq_failCount (env : TestEnv)
    (packs : List LocalPackage) (gen : Nat) :
    (specFailed env gen packs).length = failCount env gen packs := by
  induction packs generalizing gen with
  | nil => rfl
  | cons p ps ih =>
    rcases he : testCycle env gen p with ⟨ev, r⟩
    cases r <;> simp [specFailed, failCount, he, ih (gen + 1)] <;> omega

theorem batchEvents_eq_range (env : TestEnv) (packs : List LocalPackage)
    (gen : Nat) :
    batchEvents env gen packs =
      ((List.range packs.length).map
        (fun i => (testCycle env (gen + i) (packs.getD i dfltPack)).1)).flatten := by
  induction packs generalizing gen with
  | nil => rfl
  | cons p ps ih =>
    rw [batchEvents, ih (gen + 1), List.length_cons, List.range_succ_eq_map,
      List.map_cons, List.flatten_cons, List.map_map]
    congr 1
    congr 1
    refine List.map_congr_left (fun i _ => ?_)
    show (testCycle env (gen + 1 + i) (ps.getD i dfltPack)).1 =
      (testCycle env (gen + (i + 1)) ((p :: ps).getD (i + 1) dfltPack)).1
    rw [List.getD_cons_succ]
    have harith : gen + 1 + i = gen + (i + 1) := by omega
    rw [harith]

theorem classifyArgs_all_true (env : TestEnv) :
    ∀ (args : List String) (tAll : Bool) (explicit : List LocalPackage),
      "all" ∈ args →
      classifyArgs env args = Except.ok (tAll, explicit) → tAll = true := by
  intro args
  induction args with
  | nil => intro tAll explicit h; simp at h
  | cons a rest ih =>
    intro tAll explicit hmem hcls
    rw [classifyArgs] at hcls
    by_cases ha : a = "all"
    · rw [if_pos ha] at hcls
      rcases hr : classifyArgs env rest with e | ⟨tA, ps⟩
      · rw [hr] at hcls; cases hcls
      · rw [hr] at hcls
        simp only [Except.ok.injEq, Prod.mk.injEq] at hcls
        exact hcls.1.symm
    · rw [if_neg ha] at hcls
      have hmem' : "all" ∈ rest := by
        rcases List.mem_cons.mp hmem with h | h
        · exact absurd h.symm ha
        · exact h
      rcases hp : env.resolvePackage 0 a with e | p
      · rw [hp] at hcls; cases hcls
      · rw [hp] at hcls
        rcases hr : classifyArgs env rest with e | ⟨tA, ps⟩
        · rw [hr] at hcls; cases hcls
        · rw [hr] at hcls
          simp only [Except.ok.injEq, Prod.mk.injEq] at hcls
          exact hcls.1 ▸ ih tA ps hmem' hr

theorem classifyArgs_error_of_mem (env : TestEnv) :
    ∀ (args : List String) (a : String) (e : NewtError),
      a ∈ args → a ≠ "all" → env.resolvePackage 0 a = Except.error e →
      ∃ e2, classifyArgs env args = Except.error e2 := by
  intro args
  induction args with
  | nil => intro a e h; simp at h
  | cons b rest ih =>
    intro a e hmem hna hres
    rw [classifyArgs]
    by_cases hb : b = "all"
    · rw [if_pos hb]
      have hmem' : a ∈ rest := by
        rcases List.mem_cons.mp hmem with h | h
        · exact absurd (h ▸ hb) hna
        · exact h
      obtain ⟨e2, he2⟩ := ih a e hmem' hna hres
      rw [he2]
      exact ⟨e2, rfl⟩
    · rw [if_neg hb]
      rcases List.mem_cons.mp hmem with h | h
      · rw [← h, hres]
        exact ⟨e, rfl⟩
      · rcases hp : env.resolvePackage 0 b with eb | p
        · exact ⟨eb, rfl⟩
        · obtain ⟨e2, he2⟩ := ih a e h hna hres
          rw [he2]
          exact ⟨e2, rfl⟩

theorem runCycles_early_of_append (env : TestEnv) (done : List LocalPackage)
    (gen : Nat) (pack : LocalPackage) (rest : List LocalPackage)
    (e : Option NewtError)
    (hdone : allComplete env gen done = true)
    (hfatal : (testCycle env (gen + done.length) pack).2 = CycleResult.fatal e) :
    (runCycles env gen (done ++ pack :: rest)).early =
      some (EarlyExit.usage e) := by
  induction done generalizing gen with
  | nil =>
    rcases he : testCycle env gen pack with ⟨ev, r⟩
    have hr : r = CycleResult.fatal e := by
      have h2 := hfatal
      rw [List.length_nil, Nat.add_zero, he] at h2
      exact h2
    subst hr
    simp [runCycles, he]
  | cons p ps ih =>
    rw [allComplete, Bool.and_eq_true] at hdone
    obtain ⟨h1, h2⟩ := hdone
    have hf : gen + (p :: ps).length = gen + 1 + ps.length := by
      simp only [List.length_cons]
      omega
    rw [hf] at hfatal
    rcases he : testCycle env gen p with ⟨ev, r⟩
    cases r with
    | fatal e' => simp [cycleCompletesB, he] at h1
    | panicked m => simp [cycleCompletesB, he] at h1
    | donePass q =>
      have hrec := ih (gen + 1) h2 hfatal
      simp [runCycles, he, hrec]
    | doneFail q =>
      have hrec := ih (gen + 1) h2 hfatal
      simp [runCycles, he, hrec]

theorem classifyCleanArgs_all_true (env : CmdEnv) :
    ∀ (args : List String) (cAll : Bool) (ts : List Target),
      TARGET_KEYWORD_ALL ∈ args →
      classifyCleanArgs env args = Except.ok (cAll, ts) → cAll = true := by
  intro args
  induction args with
  | nil => intro cAll ts h; simp at h
  | cons a rest ih =>
    intro cAll ts hmem hcls
    rw [classifyCleanArgs] at hcls
    by_cases ha : a = TARGET_KEYWORD_ALL
    · rw [if_pos ha] at hcls
      rcases hr : classifyCleanArgs env rest with e | ⟨cA, us⟩
      · rw [hr] at hcls; cases hcls
      · rw [hr] at hcls
        simp only [Except.ok.injEq, Prod.mk.injEq] at hcls
        exact hcls.1.symm
    · rw [if_neg ha] at hcls
      have hmem' : TARGET_KEYWORD_ALL ∈ rest := by
        rcases List.mem_cons.mp hmem with h | h
        · exact absurd h.symm ha
        · exact h
      rcases hp : env.resolveTarget a with _ | t
      · rw [hp] at hcls; cases hcls
      · rw [hp] at hcls
        rcases hr : classifyCleanArgs env rest with e | ⟨cA, us⟩
        · rw [hr] at hcls; cases hcls
        · rw [hr] at hcls
          simp only [Except.ok.injEq, Prod.mk.injEq] at hcls
          exact hcls.1 ▸ ih cA us hmem' hr

theorem classifyCleanArgs_all_false (env : CmdEnv) :
    ∀ (args : List String) (cAll : Bool) (ts : List Target),
      TARGET_KEYWORD_ALL ∉ args →
      classifyCleanArgs env args = Except.ok (cAll, ts) → cAll = false := by
  intro args
  induction args with
  | nil =>
    intro cAll ts _ hcls
    rw [classifyCleanArgs] at hcls
    simp only [Except.ok.injEq, Prod.mk.injEq] at hcls
    exact hcls.1.symm
  | cons a rest ih =>
    intro cAll ts hmem hcls
    have ha : a ≠ TARGET_KEYWORD_ALL := fun h =>
      hmem (h ▸ List.mem_cons_self a rest)
    have hmem' : TARGET_KEYWORD_ALL ∉ rest := fun h =>
      hmem (List.mem_cons_of_mem a h)
    rw [classifyCleanArgs, if_neg ha] at hcls
    rcases hp : env.resolveTarget a with _ | t
    · rw [hp] at hcls; cases hcls
    · rw [hp] at hcls
      rcases hr : classifyCleanArgs env rest with e | ⟨cA, us⟩
      · rw [hr] at hcls; cases hcls
      · rw [hr] at hcls
        simp only [Except.ok.injEq, Prod.mk.injEq] at hcls
        exact hcls.1 ▸ ih cA us hmem' hr

theorem cleanTargets_success (env : CmdEnv) :
    ∀ ts : List Target,
      (∀ t ∈ ts, env.mkBuilderRes t = none ∧ env.cleanRes t = none) →
      cleanTargets env ts =
        ((ts.map (fun t => [Event.mkBuilder 0 t, Event.cleanAction t])).flatten,
         none) := by
  intro ts
  induction ts with
  | nil => intro _; rfl
  | cons t us ih =>
    intro h
    obtain ⟨hb, hc⟩ := h t (List.mem_cons_self t us)
    have hrest := ih (fun x hx => h x (List.mem_cons_of_mem t hx))
    simp [cleanTargets, hb, hc, hrest]

/-- Recognizer for build-action events, used to count `Build` invocations. -/
def isBuildEvent : Event → Bool
  | Event.buildAction _ => true
  | _ => false

/-- C2: for every test-command invocation whose argument list contains the
literal `"all"`, the selection equals exactly the packages, across every
repository, whose base path contains the `src/test` subdirectory, and the
explicitly named packages are discarded (the selection is independent of
them). -/
theorem c2_test_all_selection (env : TestEnv) (args : List String)
    (tAll : Bool) (explicit : List LocalPackage)
    (hmem : "all" ∈ args)
    (hcls : classifyArgs env args = Except.ok (tAll, explicit)) :
    selectPacks env tAll explicit =
      (env.packageList.flatten).filter
        (fun p => env.nodeExist (p.basePath ++ "/src/test")) ∧
    (∀ p : LocalPackage,
      p ∈ selectPacks env tAll explicit ↔
        p ∈ env.packageList.flatten ∧
          env.nodeExist (p.basePath ++ "/src/test") = true) ∧
    (∀ other : List LocalPackage,
      selectPacks env tAll other = selectPacks env tAll explicit) := by
  have htA : tAll = true := classifyArgs_all_true env args tAll explicit hmem hcls
  subst htA
  refine ⟨rfl, ?_, fun other => rfl⟩
  intro p
  simp [selectPacks, List.mem_filter, pkgIsTestable, List.mem_flatten]
  tauto

/-- C3: each cycle of a test batch performs, in order, the unconditional
project reset, resolution of the reserved target `"unittest"` against the
new generation, construction of a fresh builder, the progress notice,
re-resolution of the package by its recorded full name against the new
generation, and the test action on the re-resolved package object; the
`i`-th cycle of the batch runs wholly at generation `1 + i`, so two cycles
of the same package are isolated and their outcomes independent. -/
theorem c3_cycle_isolation (env : TestEnv) (packs : List LocalPackage)
    (hall : allComplete env 1 packs = true) :
    (runCycles env 1 packs).events =
      ((List.range packs.length).map
        (fun i => (testCycle env (1 + i) (packs.getD i dfltPack)).1)).flatten ∧
    ∀ (gen : Nat) (pack : LocalPackage) (t : Target) (q : LocalPackage),
      env.resolveTarget gen TARGET_TEST_NAME = some t →
      env.mkBuilderRes gen t = none →
      env.resolvePackage gen pack.fullName = Except.ok q →
      (testCycle env gen pack).1 =
        [Event.reset, Event.resolveTgt gen TARGET_TEST_NAME,
         Event.mkBuilder gen t,
         Event.status Verbosity.default
           ("Testing package " ++ pack.fullName ++ "\n"),
         Event.resolvePkg gen pack.fullName,
         Event.testAction gen t q] ++ cycleTail env gen t q := by
  constructor
  · rw [runCycles_eq_of_allComplete env packs 1 hall]
    exact batchEvents_eq_range env packs 1
  · intro gen pack t q h1 h2 h3
    rcases ht : env.test gen t q with _ | ge
    · simp [testCycle, cycleTail, h1, h2, h3, ht]
    · rcases ge with ne | m
      · simp [testCycle, cycleTail, h1, h2, h3, ht]
      · simp [testCycle, cycleTail, h1, h2, h3, ht]

/-- C4: a package whose test action returns a structured error does not
abort the batch: the diagnostic text is emitted immediately (last event of
the cycle) at quiet verbosity, the re-resolved package is appended to the
failed list, and the loop continues with the remaining packages. -/
theorem c4_failure_recorded_and_loop_continues (env : TestEnv) (gen : Nat)
    (pack : LocalPackage) (rest : List LocalPackage) (t : Target)
    (q : LocalPackage) (ne : NewtError)
    (h1 : env.resolveTarget gen TARGET_TEST_NAME = some t)
    (h2 : env.mkBuilderRes gen t = none)
    (h3 : env.resolvePackage gen pack.fullName = Except.ok q)
    (h4 : env.test gen t q = some (GoError.newt ne)) :
    (testCycle env gen pack).1.getLast? =
        some (Event.status Verbosity.quiet ne.text) ∧
    (testCycle env gen pack).2 = CycleResult.doneFail q ∧
    runCycles env gen (pack :: rest) =
      ⟨(testCycle env gen pack).1 ++ (runCycles env (gen + 1) rest).events,
       (runCycles env (gen + 1) rest).passed,
       q :: (runCycles env (gen + 1) rest).failed,
       (runCycles env (gen + 1) rest).early⟩ := by
  have hc : testCycle env gen pack =
      ([Event.reset, Event.resolveTgt gen TARGET_TEST_NAME,
        Event.mkBuilder gen t,
        Event.status Verbosity.default
          ("Testing package " ++ pack.fullName ++ "\n"),
        Event.resolvePkg gen pack.fullName,
        Event.testAction gen t q,
        Event.status Verbosity.quiet ne.text],
       CycleResult.doneFail q) := by
    simp [testCycle, h1, h2, h3, h4]
  refine ⟨?_, ?_, ?_⟩
  · rw [hc]
    rfl
  · rw [hc]
  · simp [runCycles, hc]

/-- C7: when the selection after Step 1 is empty the command fails fatally
with "No testable packages found" and performs zero test cycles (its event
trace is empty). -/
theorem c7_empty_selection_fatal (env : TestEnv) (args : List String)
    (tAll : Bool) (explicit : List LocalPackage)
    (hinit : env.projInit = none)
    (hargs : 0 < args.length)
    (hcls : classifyArgs env args = Except.ok (tAll, explicit))
    (hempty : selectPacks env tAll explicit = []) :
    testRunCmd env args =
      ⟨[], [], [], Outcome.usageExit (some ⟨"No testable packages found"⟩)⟩ := by
  have h1 : ¬ args.length < 1 := by omega
  have h0 : ¬ args = [] := by
    intro h
    subst h
    simp at hargs
  simp [testRunCmd, hinit, if_neg h1, h0, hcls, hempty]

/-- C9: classifying a failed test outcome performs the dynamic type
assertion `err.(*util.NewtError)`: an error value of any other dynamic
type makes the classification step panic, stopping the batch loop with a
panic rather than a recorded failure. -/
theorem c9_nonstructured_error_panics (env : TestEnv) (gen : Nat)
    (pack : LocalPackage) (rest : List LocalPackage) (t : Target)
    (q : LocalPackage) (m : String)
    (h1 : env.resolveTarget gen TARGET_TEST_NAME = some t)
    (h2 : env.mkBuilderRes gen t = none)
    (h3 : env.resolvePackage gen pack.fullName = Except.ok q)
    (h4 : env.test gen t q = some (GoError.other m)) :
    (testCycle env gen pack).2 = CycleResult.panicked m ∧
    (runCycles env gen (pack :: rest)).early =
      some (EarlyExit.panicStop m) ∧
    (runCycles env gen (pack :: rest)).failed = [] := by
  have hc : (testCycle env gen pack).2 = CycleResult.panicked m := by
    simp [testCycle, h1, h2, h3, h4]
  rcases he : testCycle env gen pack with ⟨ev, r⟩
  rw [he] at hc
  simp only at hc
  subst hc
  refine ⟨rfl, ?_, ?_⟩ <;> simp [runCycles, he]

/-- C10: every explicitly named package is resolved during argument
classification, before the `"all"` wildcard takes effect; a resolution
failure of any explicit name aborts the whole command fatally with an
empty event trace (no selection, no test cycle), even when `"all"` is
among the arguments. -/
theorem c10_explicit_resolution_failure_aborts (env : TestEnv)
    (args : List String) (a : String) (e : NewtError)
    (hinit : env.projInit = none)
    (hmem : a ∈ args) (hna : a ≠ "all")
    (hres : env.resolvePackage 0 a = Except.error e) :
    ∃ e2 : NewtError,
      testRunCmd env args = ⟨[], [], [], Outcome.usageExit (some e2)⟩ := by
  obtain ⟨e2, he2⟩ := classifyArgs_error_of_mem env args a e hmem hna hres
  have h1 : ¬ args.length < 1 := by
    cases args with
    | nil => cases hmem
    | cons b rest => simp only [List.length_cons]; omega
  have h0 : ¬ args = [] := by
    intro h
    subst h
    cases hmem
  exact ⟨e2, by simp [testRunCmd, hinit, if_neg h1, h0, he2]⟩

/-- C1: over a selection of `N` packages of which `K = failCount` have a
failing test action, once every cycle completes the passed list holds the
`N − K` passing packages and the failed list the `K` failing ones, both in
selection order; the batch terminates as a failure through the usage-error
exit path exactly when `K > 0`, and the failure report names both the
passed and the failed packages. -/
theorem c1_test_batch_aggregation (env : TestEnv) (args : List String)
    (tAll : Bool) (explicit : List LocalPackage)
    (hinit : env.projInit = none)
    (hargs : 0 < args.length)
    (hcls : classifyArgs env args = Except.ok (tAll, explicit))
    (hne : (selectPacks env tAll explicit).length ≠ 0)
    (hall : allComplete env 1 (selectPacks env tAll explicit) = true) :
    (testRunCmd env args).passedPkgs =
        specPassed env 1 (selectPacks env tAll explicit) ∧
    (testRunCmd env args).failedPkgs =
        specFailed env 1 (selectPacks env tAll explicit) ∧
    (testRunCmd env args).failedPkgs.length =
        failCount env 1 (selectPacks env tAll explicit) ∧
    (testRunCmd env args).passedPkgs.length =
        (selectPacks env tAll explicit).length -
          failCount env 1 (selectPacks env tAll explicit) ∧
    (testRunCmd env args).result =
      (if 0 < failCount env 1 (selectPacks env tAll explicit) then
        Outcome.usageExit (some ⟨"Test failure(s):\n" ++
          ("Passed tests: [" ++
            PackageNameList (specPassed env 1 (selectPacks env tAll explicit))
            ++ "]") ++ "\n" ++
          ("Failed tests: [" ++
            PackageNameList (specFailed env 1 (selectPacks env tAll explicit))
            ++ "]")⟩)
      else Outcome.ok) := by
  have h1 : ¬ args.length < 1 := by omega
  have h0 : ¬ args = [] := by
    intro h
    subst h
    simp at hargs
  have hrun := runCycles_eq_of_allComplete env (selectPacks env tAll explicit) 1 hall
  have hlen := specPassed_length_add env (selectPacks env tAll explicit) 1 hall
  have hfc := specFailed_length_eq_failCount env (selectPacks env tAll explicit) 1
  by_cases hK : 0 < failCount env 1 (selectPacks env tAll explicit)
  · have hfl : 0 < (specFailed env 1 (selectPacks env tAll explicit)).length := by
      rw [hfc]
      exact hK
    have hcmd : testRunCmd env args =
        ⟨batchEvents env 1 (selectPacks env tAll explicit),
         specPassed env 1 (selectPacks env tAll explicit),
         specFailed env 1 (selectPacks env tAll explicit),
         Outcome.usageExit (some ⟨"Test failure(s):\n" ++
           ("Passed tests: [" ++
             PackageNameList (specPassed env 1 (selectPacks env tAll explicit))
             ++ "]") ++ "\n" ++
           ("Failed tests: [" ++
             PackageNameList (specFailed env 1 (selectPacks env tAll explicit))
             ++ "]")⟩)⟩ := by
      simp only [testRunCmd, hinit, if_neg h1, h0, hcls, if_neg hne, hrun]
      simp [PackageNameList, hfl]
    refine ⟨by rw [hcmd], by rw [hcmd], ?_, ?_, ?_⟩
    · rw [hcmd]
      exact hfc
    · rw [hcmd]
      show (specPassed env 1 (selectPacks env tAll explicit)).length = _
      omega
    · rw [hcmd, if_pos hK]
  · have hfl : (specFailed env 1 (selectPacks env tAll explicit)).length = 0 := by
      omega
    have hcmd : testRunCmd env args =
        ⟨batchEvents env 1 (selectPacks env tAll explicit) ++
           [Event.status Verbosity.default
              ("Passed tests: [" ++
                 PackageNameList (specPassed env 1 (selectPacks env tAll explicit))
                 ++ "]" ++ "\n"),
            Event.status Verbosity.default "All tests passed\n"],
         specPassed env 1 (selectPacks env tAll explicit),
         specFailed env 1 (selectPacks env tAll explicit),
         Outcome.ok⟩ := by
      simp only [testRunCmd, hinit, if_neg h1, h0, hcls, if_neg hne, hrun]
      simp [PackageNameList, hfl]
    refine ⟨by rw [hcmd], by rw [hcmd], ?_, ?_, ?_⟩
    · rw [hcmd]
      exact hfc
    · rw [hcmd]
      show (specPassed env 1 (selectPacks env tAll explicit)).length = _
      omega
    · rw [hcmd, if_neg hK]

/-- C5: when any clean-command argument equals the wildcard
`TARGET_KEYWORD_ALL`, the whole build output root (`BinRoot`) is removed
recursively and per-target `Clean` is never invoked, even when explicit
target names are also supplied; without the wildcard, `Clean` runs once
per resolved explicit target, in order. -/
theorem c5_clean_all_subsumes (env : CmdEnv) (args : List String)
    (cAll : Bool) (targets : List Target)
    (hinit : env.projInit = none)
    (hargs : 0 < args.length)
    (hcls : classifyCleanArgs env args = Except.ok (cAll, targets)) :
    (TARGET_KEYWORD_ALL ∈ args →
      Event.removeAll env.binRoot ∈ (cleanRunCmd env args).1 ∧
      ∀ t : Target, Event.cleanAction t ∉ (cleanRunCmd env args).1) ∧
    (TARGET_KEYWORD_ALL ∉ args →
      (∀ t ∈ targets, env.mkBuilderRes t = none ∧ env.cleanRes t = none) →
      cleanRunCmd env args =
        ((targets.map
            (fun t => [Event.mkBuilder 0 t, Event.cleanAction t])).flatten,
         Outcome.ok)) := by
  have h1 : ¬ args.length < 1 := by omega
  have h0 : ¬ args = [] := by
    intro h
    subst h
    simp at hargs
  constructor
  · intro hmem
    have hcA : cAll = true :=
      classifyCleanArgs_all_true env args cAll targets hmem hcls
    subst hcA
    have hbody : (cleanRunCmd env args).1 =
        [Event.status Verbosity.verbose
           ("Cleaning directory " ++ env.binRoot ++ "\n"),
         Event.removeAll env.binRoot] := by
      cases hre : env.removeAllRes with
      | none => simp [cleanRunCmd, hinit, if_neg h1, h0, hcls, hre]
      | some e => simp [cleanRunCmd, hinit, if_neg h1, h0, hcls, hre]
    rw [hbody]
    exact ⟨by simp, fun t => by simp⟩
  · intro hmem hsucc
    have hcA : cAll = false :=
      classifyCleanArgs_all_false env args cAll targets hmem hcls
    subst hcA
    simp [cleanRunCmd, hinit, if_neg h1, h0, hcls,
      cleanTargets_success env targets hsucc]

/-- C6: a cycle whose re-resolution of the package after the reset fails
terminates the whole run fatally with the fixed message
"Failed to resolve package: <name>", whatever the underlying resolver
error was. -/
theorem c6_reresolve_fatal_fixed_message (env : TestEnv) (args : List String)
    (tAll : Bool) (explicit done rest : List LocalPackage)
    (pack : LocalPackage) (t : Target) (e : NewtError)
    (hinit : env.projInit = none)
    (hargs : 0 < args.length)
    (hcls : classifyArgs env args = Except.ok (tAll, explicit))
    (hsel : selectPacks env tAll explicit = done ++ pack :: rest)
    (hdone : allComplete env 1 done = true)
    (h1 : env.resolveTarget (1 + done.length) TARGET_TEST_NAME = some t)
    (h2 : env.mkBuilderRes (1 + done.length) t = none)
    (h3 : env.resolvePackage (1 + done.length) pack.fullName =
      Except.error e) :
    (testRunCmd env args).result =
      Outcome.usageExit (some ⟨"Failed to resolve package: " ++ pack.name⟩) := by
  have hn1 : ¬ args.length < 1 := by omega
  have h0 : ¬ args = [] := by
    intro h
    subst h
    simp at hargs
  have hfat : (testCycle env (1 + done.length) pack).2 =
      CycleResult.fatal (some ⟨"Failed to resolve package: " ++ pack.name⟩) := by
    simp [testCycle, h1, h2, h3]
  have hearly := runCycles_early_of_append env done 1 pack rest
    (some ⟨"Failed to resolve package: " ++ pack.name⟩) hdone hfat
  have hne : ¬ (selectPacks env tAll explicit).length = 0 := by
    rw [hsel]
    simp
  rcases hr : runCycles env 1 (done ++ pack :: rest) with ⟨ev, pa, fa, early⟩
  rw [hr] at hearly
  simp only at hearly
  subst hearly
  simp [testRunCmd, hinit, if_neg hn1, h0, hcls, if_neg hne, hsel, hr]

/-- C8: for the build command, an initialization failure, an empty
argument list, an unresolvable first target name, a builder-construction
failure and a `Build` failure each terminate fatally through the
usage-error exit path; otherwise exactly one `Build` action runs and a
confirmation naming `AppElfPath` is printed. -/
theorem c8_build_dispatch (env : CmdEnv) (args : List String) :
    (∀ e : NewtError, env.projInit = some e →
      buildRunCmd env args = ([], Outcome.usageExit (some e))) ∧
    (env.projInit = none → args = [] →
      buildRunCmd env args = ([], Outcome.usageExit none)) ∧
    (∀ a rest, env.projInit = none → args = a :: rest →
      env.resolveTarget a = none →
      buildRunCmd env args =
        ([], Outcome.usageExit (some ⟨"invalid target name: " ++ a⟩))) ∧
    (∀ a rest t e, env.projInit = none → args = a :: rest →
      env.resolveTarget a = some t → env.mkBuilderRes t = some e →
      buildRunCmd env args =
        ([Event.mkBuilder 0 t], Outcome.usageExit (some e))) ∧
    (∀ a rest t e, env.projInit = none → args = a :: rest →
      env.resolveTarget a = some t → env.mkBuilderRes t = none →
      env.buildRes t = some e →
      buildRunCmd env args =
        ([Event.mkBuilder 0 t, Event.buildAction t],
         Outcome.usageExit (some e))) ∧
    (∀ a rest t, env.projInit = none → args = a :: rest →
      env.resolveTarget a = some t → env.mkBuilderRes t = none →
      env.buildRes t = none →
      buildRunCmd env args =
        ([Event.mkBuilder 0 t, Event.buildAction t,
          Event.status Verbosity.default
            ("App successfully built: " ++ env.appElfPath t ++ "\n")],
         Outcome.ok) ∧
      ((buildRunCmd env args).1.countP isBuildEvent) = 1) := by
  refine ⟨?_, ?_, ?_, ?_, ?_, ?_⟩
  · intro e he
    simp [buildRunCmd, he]
  · intro he ha
    subst ha
    simp [buildRunCmd, he]
  · intro a rest he ha hr
    subst ha
    simp [buildRunCmd, he, hr]
  · intro a rest t e he ha hr hb
    subst ha
    simp [buildRunCmd, he, hr, hb]
  · intro a rest t e he ha hr hb hbd
    subst ha
    simp [buildRunCmd, he, hr, hb, hbd]
  · intro a rest t he ha hr hb hbd
    subst ha
    constructor
    · simp [buildRunCmd, he, hr, hb, hbd]
    · simp [buildRunCmd, he, hr, hb, hbd, isBuildEvent, List.countP_cons]

/-! Concrete fixtures used by the witnesses. -/

/-- A testable package `sys/a` whose test action fails. -/
def pkgA : LocalPackage := ⟨"sys/a", "a", "/r/sys/a"⟩

/-- A package `sys/b` without a `src/test` subdirectory. -/
def pkgB : LocalPackage := ⟨"sys/b", "b", "/r/sys/b"⟩

/-- A testable package `sys/c` whose test action passes. -/
def pkgC : LocalPackage := ⟨"sys/c", "c", "/r/sys/c"⟩

/-- The project's `unittest` target. -/
def utTgt : Target := ⟨"unittest"⟩

/-- Package resolution for the witness project: the three packages above
resolve by full name at every generation; other names fail. -/
def resolveW : Nat → String → Except NewtError LocalPackage := fun _ n =>
  if n = "sys/a" then Except.ok pkgA
  else if n = "sys/b" then Except.ok pkgB
  else if n = "sys/c" then Except.ok pkgC
  else Except.error ⟨"unknown package: " ++ n⟩

/-- Witness environment: two repositories, packages a and c testable,
a's test action fails with a structured error, c's passes. -/
def envW : TestEnv :=
  ⟨none,
   fun s => s != "/r/sys/b/src/test",
   [[pkgA, pkgB], [pkgC]],
   resolveW,
   fun _ n => if n = TARGET_TEST_NAME then some utTgt else none,
   fun _ _ => none,
   fun _ _ p => if p.name = "a" then some (GoError.newt ⟨"Test failure"⟩)
                else none⟩

/-- Like `envW` but with no testable package anywhere. -/
def envE : TestEnv :=
  ⟨none,
   fun _ => false,
   [[pkgA, pkgB], [pkgC]],
   resolveW,
   fun _ n => if n = TARGET_TEST_NAME then some utTgt else none,
   fun _ _ => none,
   fun _ _ _ => none⟩

/-- Like `envW` but package resolution breaks after the first reset
(generations ≥ 1), so re-resolution inside a cycle fails. -/
def envR : TestEnv :=
  ⟨none,
   fun s => s != "/r/sys/b/src/test",
   [[pkgA, pkgB], [pkgC]],
   fun g n => if g = 0 then resolveW 0 n else Except.error ⟨"corrupt state"⟩,
   fun _ n => if n = TARGET_TEST_NAME then some utTgt else none,
   fun _ _ => none,
   fun _ _ _ => none⟩

/-- Like `envW` but a's test action fails with an error that is not a
`*util.NewtError`. -/
def envP : TestEnv :=
  ⟨none,
   fun s => s != "/r/sys/b/src/test",
   [[pkgA, pkgB], [pkgC]],
   resolveW,
   fun _ n => if n = TARGET_TEST_NAME then some utTgt else none,
   fun _ _ => none,
   fun _ _ p => if p.name = "a" then some (GoError.other "not a newt error")
                else none⟩

/-- A target `t1` for the clean/build witnesses. -/
def tgt1 : Target := ⟨"t1"⟩

/-- A second target `t2` for the clean/build witnesses. -/
def tgt2 : Target := ⟨"t2"⟩

/-- Witness environment for the clean and build commands. -/
def envC : CmdEnv :=
  ⟨none,
   fun n => if n = "t1" then some tgt1 else if n = "t2" then some tgt2
            else none,
   fun _ => none,
   fun _ => none,
   fun _ => none,
   fun t => "/w/bin/" ++ t.tname ++ "/app.elf",
   "/w/bin",
   none⟩

/-- Witness for C1: a concrete batch over packages a (failing) and
c (passing). -/
theorem c1_test_batch_aggregation_witness :
    envW.projInit = none ∧
    0 < (["sys/a", "sys/c"] : List String).length ∧
    classifyArgs envW ["sys/a", "sys/c"] = Except.ok (false, [pkgA, pkgC]) ∧
    (selectPacks envW false [pkgA, pkgC]).length ≠ 0 ∧
    allComplete envW 1 (selectPacks envW false [pkgA, pkgC]) = true ∧
    ((testRunCmd envW ["sys/a", "sys/c"]).passedPkgs =
        specPassed envW 1 (selectPacks envW false [pkgA, pkgC]) ∧
     (testRunCmd envW ["sys/a", "sys/c"]).failedPkgs =
        specFailed envW 1 (selectPacks envW false [pkgA, pkgC]) ∧
     (testRunCmd envW ["sys/a", "sys/c"]).failedPkgs.length =
        failCount envW 1 (selectPacks envW false [pkgA, pkgC]) ∧
     (testRunCmd envW ["sys/a", "sys/c"]).passedPkgs.length =
        (selectPacks envW false [pkgA, pkgC]).length -
          failCount envW 1 (selectPacks envW false [pkgA, pkgC]) ∧
     (testRunCmd envW ["sys/a", "sys/c"]).result =
       (if 0 < failCount envW 1 (selectPacks envW false [pkgA, pkgC]) then
         Outcome.usageExit (some ⟨"Test failure(s):\n" ++
           ("Passed tests: [" ++
             PackageNameList
               (specPassed envW 1 (selectPacks envW false [pkgA, pkgC]))
             ++ "]") ++ "\n" ++
           ("Failed tests: [" ++
             PackageNameList
               (specFailed envW 1 (selectPacks envW false [pkgA, pkgC]))
             ++ "]")⟩)
       else Outcome.ok)) :=
  ⟨rfl, by decide, rfl, by decide, by decide,
   c1_test_batch_aggregation envW ["sys/a", "sys/c"] false [pkgA, pkgC]
     rfl (by decide) rfl (by decide) (by decide)⟩

/-- Witness for C2: `test all sys/a` selects the testable packages a and
c, discarding the explicit name. -/
theorem c2_test_all_selection_witness :
    "all" ∈ (["all", "sys/a"] : List String) ∧
    classifyArgs envW ["all", "sys/a"] = Except.ok (true, [pkgA]) ∧
    (selectPacks envW true [pkgA] =
      (envW.packageList.flatten).filter
        (fun p => envW.nodeExist (p.basePath ++ "/src/test")) ∧
    (∀ p : LocalPackage,
      p ∈ selectPacks envW true [pkgA] ↔
        p ∈ envW.packageList.flatten ∧
          envW.nodeExist (p.basePath ++ "/src/test") = true) ∧
    (∀ other : List LocalPackage,
      selectPacks envW true other = selectPacks envW true [pkgA])) :=
  ⟨by decide, rfl,
   c2_test_all_selection envW ["all", "sys/a"] true [pkgA] (by decide) rfl⟩

/-- Witness for C3: the two-package batch over a and c. -/
theorem c3_cycle_isolation_witness :
    allComplete envW 1 [pkgA, pkgC] = true ∧
    ((runCycles envW 1 [pkgA, pkgC]).events =
      ((List.range ([pkgA, pkgC] : List LocalPackage).length).map
        (fun i => (testCycle envW (1 + i) ([pkgA, pkgC].getD i dfltPack)).1)).flatten ∧
    ∀ (gen : Nat) (pack : LocalPackage) (t : Target) (q : LocalPackage),
      envW.resolveTarget gen TARGET_TEST_NAME = some t →
      envW.mkBuilderRes gen t = none →
      envW.resolvePackage gen pack.fullName = Except.ok q →
      (testCycle envW gen pack).1 =
        [Event.reset, Event.resolveTgt gen TARGET_TEST_NAME,
         Event.mkBuilder gen t,
         Event.status Verbosity.default
           ("Testing package " ++ pack.fullName ++ "\n"),
         Event.resolvePkg gen pack.fullName,
         Event.testAction gen t q] ++ cycleTail envW gen t q) :=
  ⟨by decide, c3_cycle_isolation envW [pkgA, pkgC] (by decide)⟩

/-- Witness for C4: package a fails at generation 1 and the loop
continues with package c. -/
theorem c4_failure_recorded_and_loop_continues_witness :
    envW.resolveTarget 1 TARGET_TEST_NAME = some utTgt ∧
    envW.mkBuilderRes 1 utTgt = none ∧
    envW.resolvePackage 1 pkgA.fullName = Except.ok pkgA ∧
    envW.test 1 utTgt pkgA = some (GoError.newt ⟨"Test failure"⟩) ∧
    ((testCycle envW 1 pkgA).1.getLast? =
        some (Event.status Verbosity.quiet (⟨"Test failure"⟩ : NewtError).text) ∧
    (testCycle envW 1 pkgA).2 = CycleResult.doneFail pkgA ∧
    runCycles envW 1 (pkgA :: [pkgC]) =
      ⟨(testCycle envW 1 pkgA).1 ++ (runCycles envW (1 + 1) [pkgC]).events,
       (runCycles envW (1 + 1) [pkgC]).passed,
       pkgA :: (runCycles envW (1 + 1) [pkgC]).failed,
       (runCycles envW (1 + 1) [pkgC]).early⟩) :=
  ⟨rfl, rfl, rfl, rfl,
   c4_failure_recorded_and_loop_continues envW 1 pkgA [pkgC] utTgt pkgA
     ⟨"Test failure"⟩ rfl rfl rfl rfl⟩

/-- Witness for C5: `clean all t1` classifies both arguments and acts on
the wildcard only. -/
theorem c5_clean_all_subsumes_witness :
    envC.projInit = none ∧
    0 < (["all", "t1"] : List String).length ∧
    classifyCleanArgs envC ["all", "t1"] = Except.ok (true, [tgt1]) ∧
    ((TARGET_KEYWORD_ALL ∈ (["all", "t1"] : List String) →
      Event.removeAll envC.binRoot ∈ (cleanRunCmd envC ["all", "t1"]).1 ∧
      ∀ t : Target, Event.cleanAction t ∉ (cleanRunCmd envC ["all", "t1"]).1) ∧
    (TARGET_KEYWORD_ALL ∉ (["all", "t1"] : List String) →
      (∀ t ∈ [tgt1], envC.mkBuilderRes t = none ∧ envC.cleanRes t = none) →
      cleanRunCmd envC ["all", "t1"] =
        (([tgt1].map
            (fun t => [Event.mkBuilder 0 t, Event.cleanAction t])).flatten,
         Outcome.ok))) :=
  ⟨rfl, by decide, rfl,
   c5_clean_all_subsumes envC ["all", "t1"] true [tgt1] rfl (by decide) rfl⟩

/-- Witness for C6: with resolution broken after the reset, the batch for
package c dies with the fixed message. -/
theorem c6_reresolve_fatal_fixed_message_witness :
    envR.projInit = none ∧
    0 < (["sys/c"] : List String).length ∧
    classifyArgs envR ["sys/c"] = Except.ok (false, [pkgC]) ∧
    selectPacks envR false [pkgC] = [] ++ pkgC :: [] ∧
    allComplete envR 1 [] = true ∧
    envR.resolveTarget (1 + ([] : List LocalPackage).length) TARGET_TEST_NAME =
      some utTgt ∧
    envR.mkBuilderRes (1 + ([] : List LocalPackage).length) utTgt = none ∧
    envR.resolvePackage (1 + ([] : List LocalPackage).length) pkgC.fullName =
      Except.error ⟨"corrupt state"⟩ ∧
    (testRunCmd envR ["sys/c"]).result =
      Outcome.usageExit (some ⟨"Failed to resolve package: " ++ pkgC.name⟩) :=
  ⟨rfl, by decide, rfl, rfl, rfl, rfl, rfl, rfl,
   c6_reresolve_fatal_fixed_message envR ["sys/c"] false [pkgC] [] [] pkgC
     utTgt ⟨"corrupt state"⟩ rfl (by decide) rfl rfl rfl rfl rfl rfl⟩

/-- Witness for C7: `test all` in a project with no testable package. -/
theorem c7_empty_selection_fatal_witness :
    envE.projInit = none ∧
    0 < (["all"] : List String).length ∧
    classifyArgs envE ["all"] = Except.ok (true, []) ∧
    selectPacks envE true [] = [] ∧
    testRunCmd envE ["all"] =
      ⟨[], [], [], Outcome.usageExit (some ⟨"No testable packages found"⟩)⟩ :=
  ⟨rfl, by decide, rfl, by decide,
   c7_empty_selection_fatal envE ["all"] true [] rfl (by decide) rfl
     (by decide)⟩

/-- Witness for C8: `build t1` in the clean/build witness environment. -/
theorem c8_build_dispatch_witness :
    (∀ e : NewtError, envC.projInit = some e →
      buildRunCmd envC ["t1"] = ([], Outcome.usageExit (some e))) ∧
    (envC.projInit = none → (["t1"] : List String) = [] →
      buildRunCmd envC ["t1"] = ([], Outcome.usageExit none)) ∧
    (∀ a rest, envC.projInit = none → (["t1"] : List String) = a :: rest →
      envC.resolveTarget a = none →
      buildRunCmd envC ["t1"] =
        ([], Outcome.usageExit (some ⟨"invalid target name: " ++ a⟩))) ∧
    (∀ a rest t e, envC.projInit = none → (["t1"] : List String) = a :: rest →
      envC.resolveTarget a = some t → envC.mkBuilderRes t = some e →
      buildRunCmd envC ["t1"] =
        ([Event.mkBuilder 0 t], Outcome.usageExit (some e))) ∧
    (∀ a rest t e, envC.projInit = none → (["t1"] : List String) = a :: rest →
      envC.resolveTarget a = some t → envC.mkBuilderRes t = none →
      envC.buildRes t = some e →
      buildRunCmd envC ["t1"] =
        ([Event.mkBuilder 0 t, Event.buildAction t],
         Outcome.usageExit (some e))) ∧
    (∀ a rest t, envC.projInit = none → (["t1"] : List String) = a :: rest →
      envC.resolveTarget a = some t → envC.mkBuilderRes t = none →
      envC.buildRes t = none →
      buildRunCmd envC ["t1"] =
        ([Event.mkBuilder 0 t, Event.buildAction t,
          Event.status Verbosity.default
            ("App successfully built: " ++ envC.appElfPath t ++ "\n")],
         Outcome.ok) ∧
      ((buildRunCmd envC ["t1"]).1.countP isBuildEvent) = 1) :=
  c8_build_dispatch envC ["t1"]

/-- Witness for C9: package a returns a non-structured error at
generation 1 and the loop panics. -/
theorem c9_nonstructured_error_panics_witness :
    envP.resolveTarget 1 TARGET_TEST_NAME = some utTgt ∧
    envP.mkBuilderRes 1 utTgt = none ∧
    envP.resolvePackage 1 pkgA.fullName = Except.ok pkgA ∧
    envP.test 1 utTgt pkgA = some (GoError.other "not a newt error") ∧
    ((testCycle envP 1 pkgA).2 = CycleResult.panicked "not a newt error" ∧
    (runCycles envP 1 (pkgA :: [pkgC])).early =
      some (EarlyExit.panicStop "not a newt error") ∧
    (runCycles envP 1 (pkgA :: [pkgC])).failed = []) :=
  ⟨rfl, rfl, rfl, rfl,
   c9_nonstructured_error_panics envP 1 pkgA [pkgC] utTgt pkgA
     "not a newt error" rfl rfl rfl rfl⟩

/-- Witness for C10: `test all nosuch` aborts during classification. -/
theorem c10_explicit_resolution_failure_aborts_witness :
    envW.projInit = none ∧
    "nosuch" ∈ (["all", "nosuch"] : List String) ∧
    "nosuch" ≠ "all" ∧
    envW.resolvePackage 0 "nosuch" =
      Except.error ⟨"unknown package: nosuch"⟩ ∧
    ∃ e2 : NewtError,
      testRunCmd envW ["all", "nosuch"] =
        ⟨[], [], [], Outcome.usageExit (some e2)⟩ :=
  ⟨rfl, by decide, by decide, rfl,
   c10_explicit_resolution_failure_aborts envW ["all", "nosuch"] "nosuch"
     ⟨"unknown package: nosuch"⟩ rfl (by decide) (by decide) rfl⟩

end BuildCmds
